import Mathlib

/-!
Shallow embedding of the Gemini websocket market-data client
(`src/main.rs`, `src/models.rs`): the JSON decoding layer (`Event::new`)
and the best-bid-offer event loop in `main`.  The two Rust files contain
the same decoder and data model; the embedding follows `models.rs` for
the types and decoder and `main.rs` for the event loop.

Numeric wire values (`f64` in the source) are modelled as exact
rationals: every decimal literal appearing in the verified claims is
exactly representable in both `f64` and `ℚ`, and the only arithmetic the
program performs on them (one multiplication for the trade notional) is
exact at those inputs.  Rust panics (`unwrap`/`expect`) are modelled by
`Option`, with `none` for a decode that panics.
-/

namespace Gemini

/-- Model of `serde_json::Value`.  A JSON number written as an integer
literal is `int n`; serde_json stores such a literal as an integer only
when it fits `u64` or `i64` (otherwise it falls back to a float), which
`Json.as_u64` below accounts for.  Numbers that are not integer literals
are collapsed into the payload-free `float` constructor: the decoder
only ever inspects numbers through `as_u64`, and `as_u64` of a serde
float is `None` no matter its value. -/
inductive Json where
  | null : Json
  | bool (b : Bool) : Json
  | int (n : Int) : Json
  | float : Json
  | str (s : String) : Json
  | arr (elems : List Json) : Json
  | obj (fields : List (String × Json)) : Json

/-- `m["key"]` on a `serde_json::Value`: the field's value when `m` is an
object containing the key, `Null` otherwise (also for non-objects).
Parsed JSON objects have unique keys (last occurrence wins at parse
time), so a plain association-list lookup is faithful. -/
def Json.get (j : Json) (key : String) : Json :=
  match j with
  | .obj fields =>
    match fields.lookup key with
    | some v => v
    | none => .null
  | _ => .null

/-- `Value::as_str`. -/
def Json.as_str : Json → Option String
  | .str s => some s
  | _ => none

/-- `Value::as_u64`: `Some` exactly for integer literals in `u64` range.
An integer literal outside `u64`/`i64` range is stored by serde_json as
a float, and `as_u64` of any float (or of a negative integer) is
`None`; both cases land in the `none` branches here. -/
def Json.as_u64 : Json → Option Nat
  | .int n => if 0 ≤ n ∧ n < 2 ^ 64 then some n.toNat else none
  | _ => none

/-- `Value::as_array`. -/
def Json.as_array : Json → Option (List Json)
  | .arr elems => some elems
  | _ => none

/-- Model of Rust `str::parse::<f64>` on plain decimal literals, with
exact rational semantics: optional sign, digits, optional `.` and
fraction digits (at least one digit overall).  Exponent, `inf` and
`NaN` forms are not modelled; no verified claim involves them. -/
def digitsToNat (cs : List Char) : Nat :=
  cs.foldl (fun acc c => acc * 10 + (c.toNat - 48)) 0

def parseDecimal (s : String) : Option ℚ :=
  let cs := s.data
  let sgnRest : ℚ × List Char :=
    match cs with
    | '-' :: r => (-1, r)
    | '+' :: r => (1, r)
    | r => (1, r)
  let sgn := sgnRest.1
  let rest := sgnRest.2
  let intPart := rest.takeWhile Char.isDigit
  let afterInt := rest.dropWhile Char.isDigit
  match afterInt with
  | [] =>
    if intPart.isEmpty then none
    else some (sgn * (digitsToNat intPart : ℚ))
  | '.' :: frac =>
    if ¬ frac.all Char.isDigit then none
    else if intPart.isEmpty ∧ frac.isEmpty then none
    else some (sgn * ((digitsToNat intPart : ℚ) +
      (digitsToNat frac : ℚ) / (10 : ℚ) ^ frac.length))
  | _ => none

/-- `MarketSide` from `models.rs`. -/
inductive MarketSide where
  | Bid
  | Ask
  | Unknown
deriving DecidableEq

/-- `MarketSide::from_string`. -/
def MarketSide.from_string (message : String) : MarketSide :=
  match message with
  | "ask" => MarketSide.Ask
  | "bid" => MarketSide.Bid
  | _ => MarketSide.Unknown

/-- `MessageType` from `models.rs`. -/
inductive MessageType where
  | Trade
  | Change
  | Unknown
deriving DecidableEq

/-- `MessageType::from_string`. -/
def MessageType.from_string (message : String) : MessageType :=
  match message with
  | "trade" => MessageType.Trade
  | "change" => MessageType.Change
  | _ => MessageType.Unknown

/-- `Quote` from `models.rs`. -/
structure Quote where
  price : ℚ
  reason : String
  remaining : ℚ
  side : MarketSide
  delta : Option ℚ
deriving DecidableEq

/-- `Trade` from `models.rs`. -/
structure Trade where
  price : ℚ
  amount : ℚ
  maker_side : MarketSide
deriving DecidableEq

/-- `Event` from `models.rs`. -/
inductive Event where
  | Trade (t : Gemini.Trade)
  | Quote (q : Gemini.Quote)
  | Unknown
deriving DecidableEq

/-- `MarketMessage` from `models.rs`.  `event_id` is `u64` and
`socket_sequence` is `u32` in the source; both are modelled as `Nat`
with the ranges enforced where the source enforces them (`as_u64`
bounds the former, the `as u32` cast truncates the latter). -/
structure MarketMessage where
  event_id : Nat
  events : List Event
  timestamp : Option Nat
  timestampms : Option Nat
  socket_sequence : Nat
deriving DecidableEq

/-- The `reason` field of the `Change` arm of `Event::new`:
`match e["reason"].as_str() { Some(n) => n.to_string(), None => "" }`. -/
def decodeReason (e : Json) : String :=
  match (e.get "reason").as_str with
  | some n => n
  | none => ""

/-- The `remaining` field of the `Change` arm of `Event::new`:
`match e["remaining"].as_str() { Some(n) => n.parse().unwrap(), None => 0. }`.
The inner `unwrap` panic is the `none` of `parseDecimal`. -/
def decodeRemaining (e : Json) : Option ℚ :=
  match (e.get "remaining").as_str with
  | some n => parseDecimal n
  | none => some 0

/-- The `side` field of the `Change` arm of `Event::new`. -/
def decodeSide (e : Json) : MarketSide :=
  match (e.get "side").as_str with
  | some n => MarketSide.from_string n
  | none => MarketSide.Unknown

/-- The `delta` field of the `Change` arm of `Event::new`:
`match e["delta"].as_str() { Some(n) => Some(n.parse().unwrap()), None => None }`.
The outer `Option` is the possible panic, the inner one the field. -/
def decodeDelta (e : Json) : Option (Option ℚ) :=
  match (e.get "delta").as_str with
  | some n => (parseDecimal n).map some
  | none => some none

/-- The `maker_side` field of the `Trade` arm of `Event::new`. -/
def decodeMakerSide (e : Json) : MarketSide :=
  match (e.get "makerSide").as_str with
  | some n => MarketSide.from_string n
  | none => MarketSide.Unknown

/-- The per-element closure of `Event::new`: read `price` (mandatory,
string parsed as a decimal), then `type`, then dispatch on
`MessageType::from_string`.  Note the source reads `price` before the
type dispatch, so every element — including ones of unrecognized
type — must carry a parseable `price` string.  Each `none => none` arm
is an `unwrap` panic of the source. -/
def decodeEvent (e : Json) : Option Event :=
  match (e.get "price").as_str with
  | none => none
  | some priceStr =>
    match parseDecimal priceStr with
    | none => none
    | some price =>
      match (e.get "type").as_str with
      | none => none
      | some typeStr =>
        match MessageType.from_string typeStr with
        | MessageType.Change =>
          match decodeRemaining e with
          | none => none
          | some remaining =>
            match decodeDelta e with
            | none => none
            | some delta =>
              some (Event.Quote ⟨price, decodeReason e, remaining, decodeSide e, delta⟩)
        | MessageType.Trade =>
          match (e.get "amount").as_str with
          | none => none
          | some amountStr =>
            match parseDecimal amountStr with
            | none => none
            | some amount => some (Event.Trade ⟨price, amount, decodeMakerSide e⟩)
        | MessageType.Unknown => some Event.Unknown

/-- The `.iter().map(...).collect::<Vec<_>>()` over the `events` array:
element order is preserved, and a panic on any element (a `none` from
`decodeEvent`) aborts the whole decode. -/
def decodeEvents : List Json → Option (List Event)
  | [] => some []
  | e :: rest =>
    match decodeEvent e with
    | none => none
    | some ev =>
      match decodeEvents rest with
      | none => none
      | some evl => some (ev :: evl)

/-- `Event::new` (identical in `models.rs` and `main.rs`), from the
already-parsed JSON document: `events` must be an array and every
element must decode; `eventId` and `socket_sequence` must satisfy
`as_u64`; `timestamp`/`timestampms` are optional.  The source computes
the events vector first, then unwraps the envelope fields, in this
order.  `socket_sequence` passes through `as u32`, i.e. truncation
modulo `2^32`. -/
def Event.new (m : Json) : Option MarketMessage :=
  match (m.get "events").as_array with
  | none => none
  | some evArr =>
    match decodeEvents evArr with
    | none => none
    | some events =>
      match (m.get "eventId").as_u64 with
      | none => none
      | some event_id =>
        match (m.get "socket_sequence").as_u64 with
        | none => none
        | some socket_sequence =>
          some
            { event_id := event_id
              events := events
              timestamp := (m.get "timestamp").as_u64
              timestampms := (m.get "timestampms").as_u64
              socket_sequence := socket_sequence % 2 ^ 32 }

/-- `BestBidOffer` from `models.rs`. -/
structure BestBidOffer where
  best_bid : ℚ
  best_offer : ℚ
  bid_amount_remaining : ℚ
  ask_amount_remaining : ℚ
deriving DecidableEq

/-- `BestBidOffer::new`. -/
def BestBidOffer.new : BestBidOffer :=
  { best_bid := 0, best_offer := 0
    bid_amount_remaining := 0, ask_amount_remaining := 0 }

/-- One record handed to the reporting sink (a stdout write in `main`):
either a trade with its dollar amount, or a best-bid-offer snapshot. -/
inductive Report where
  | trade (t : Trade) (dollar_amt : ℚ)
  | bbo (snapshot : BestBidOffer)
deriving DecidableEq

/-- The `Event::Quote` arm of the event loop in `main`: the `match
q.side` block that overwrites the two fields of the quoted side, leaves
the opposite side alone, and does nothing for `Unknown`. -/
def applyQuote (bbo : BestBidOffer) (q : Quote) : BestBidOffer :=
  match q.side with
  | MarketSide.Ask =>
    { bbo with best_offer := q.price, ask_amount_remaining := q.remaining }
  | MarketSide.Bid =>
    { bbo with best_bid := q.price, bid_amount_remaining := q.remaining }
  | MarketSide.Unknown => bbo

/-- The body of `for e in event.events` in `main`: a trade is reported
once with `dollar_amt = t.amount * t.price` and the state untouched; a
quote mutates the state via `applyQuote` and then reports the (possibly
unchanged) snapshot; `Event::Unknown` does nothing. -/
def processEvent (bbo : BestBidOffer) (e : Event) : BestBidOffer × List Report :=
  match e with
  | Event.Trade t => (bbo, [Report.trade t (t.amount * t.price)])
  | Event.Quote q =>
    let bbo2 := applyQuote bbo q
    (bbo2, [Report.bbo bbo2])
  | Event.Unknown => (bbo, [])

/-- The whole `for` loop: events of one message applied in wire order,
reports concatenated in order. -/
def processEvents (bbo : BestBidOffer) (es : List Event) : BestBidOffer × List Report :=
  match es with
  | [] => (bbo, [])
  | e :: rest =>
    let step := processEvent bbo e
    let tail := processEvents step.1 rest
    (tail.1, step.2 ++ tail.2)

/-- One whole message through the pipeline: a message whose decode
panics in the source processes none of its events (modelled as the
state unchanged and nothing reported). -/
def processMessage (bbo : BestBidOffer) (m : Json) : BestBidOffer × List Report :=
  match Event.new m with
  | none => (bbo, [])
  | some msg => processEvents bbo msg.events

/-- The condition under which the optional decimal fields `remaining`
and `delta` of a change event cannot panic the decoder: the field is
absent or not a JSON string (the decoder then defaults it), or it is a
string that parses as a decimal. -/
def optionalDecimalOk (j : Json) : Bool :=
  match j.as_str with
  | some n => (parseDecimal n).isSome
  | none => true

/-- An events element of unrecognized type carrying no `price` field. -/
def eC1 : Json := Json.obj [("type", Json.str "liquidation")]

/-- A message whose only events element is `eC1`. -/
def mC1 : Json := Json.obj
  [("eventId", Json.int 1), ("socket_sequence", Json.int 2),
   ("events", Json.arr [eC1])]

/-- An events element of unrecognized type that does carry a valid
`price` string. -/
def eW1a : Json := Json.obj
  [("type", Json.str "liquidation"), ("price", Json.str "5")]

/-- A well-formed trade element. -/
def eW1b : Json := Json.obj
  [("type", Json.str "trade"), ("price", Json.str "2"),
   ("amount", Json.str "3")]

/-- A message batching `eW1a` and `eW1b`. -/
def mW1 : Json := Json.obj
  [("eventId", Json.int 1), ("socket_sequence", Json.int 7),
   ("events", Json.arr [eW1a, eW1b])]

/-- The decode of `mW1`. -/
def msgW1 : MarketMessage :=
  { event_id := 1
    events := [Event.Unknown,
               Event.Trade { price := 2, amount := 3, maker_side := MarketSide.Unknown }]
    timestamp := none
    timestampms := none
    socket_sequence := 7 }

/-- A change element whose `remaining` is present as a string but does
not parse as a decimal. -/
def eC2 : Json := Json.obj
  [("type", Json.str "change"), ("price", Json.str "1.0"),
   ("remaining", Json.str "abc")]

/-- A message whose only events element is `eC2`. -/
def mC2 : Json := Json.obj
  [("eventId", Json.int 1), ("socket_sequence", Json.int 2),
   ("events", Json.arr [eC2])]

/-- A change element with `remaining` and `delta` absent. -/
def eW2 : Json := Json.obj
  [("type", Json.str "change"), ("price", Json.str "1.5"),
   ("side", Json.str "bid")]

/-- The two-quote message of the spec's sequence example. -/
def m3 : Json := Json.obj
  [("eventId", Json.int 1), ("socket_sequence", Json.int 0),
   ("events", Json.arr
     [Json.obj [("type", Json.str "change"), ("side", Json.str "bid"),
                ("price", Json.str "50000.00"), ("remaining", Json.str "1.5")],
      Json.obj [("type", Json.str "change"), ("side", Json.str "ask"),
                ("price", Json.str "50010.00"), ("remaining", Json.str "0.8")]])]

/-- A change element with a valid `price` and all four optional fields
omitted. -/
def eW7 : Json := Json.obj
  [("type", Json.str "change"), ("price", Json.str "3.5")]

/-- The trade element of the spec's notional example. -/
def e8 : Json := Json.obj
  [("type", Json.str "trade"), ("price", Json.str "100.50"),
   ("amount", Json.str "2.0"), ("makerSide", Json.str "bid")]

/-- An otherwise well-formed message whose `socket_sequence` is the
integer `2^64`, which serde_json cannot store as an integer. -/
def m10c : Json := Json.obj
  [("eventId", Json.int 1), ("events", Json.arr []),
   ("socket_sequence", Json.int (2 ^ 64))]

/-- An otherwise well-formed message whose `socket_sequence` is
`2^32 + 5`. -/
def m10w : Json := Json.obj
  [("eventId", Json.int 1), ("events", Json.arr []),
   ("socket_sequence", Json.int (2 ^ 32 + 5))]

/-! ## Helper lemmas -/

/-- A type string other than `"trade"` and `"change"` maps to
`MessageType.Unknown`. -/
theorem from_string_type_unknown (t : String) (h1 : t ≠ "trade") (h2 : t ≠ "change") :
    MessageType.from_string t = MessageType.Unknown := by
  unfold MessageType.from_string
  split <;> simp_all

/-- Decoding the events array succeeds on every element or not at all,
and preserves length. -/
theorem decodeEvents_length (xs : List Json) :
    ∀ ys : List Event, decodeEvents xs = some ys → ys.length = xs.length := by
  induction xs with
  | nil =>
    intro ys h
    unfold decodeEvents at h
    cases h
    rfl
  | cons x xt ih =>
    intro ys h
    unfold decodeEvents at h
    cases hx : decodeEvent x with
    | none => rw [hx] at h; cases h
    | some ev =>
      rw [hx] at h
      cases hxt : decodeEvents xt with
      | none => rw [hxt] at h; cases h
      | some evl =>
        rw [hxt] at h
        cases h
        simp [ih evl hxt]

/-- Decoding the events array is elementwise and order-preserving. -/
theorem decodeEvents_get (xs : List Json) :
    ∀ (ys : List Event), decodeEvents xs = some ys →
      ∀ (i : Nat) (hi : i < xs.length) (hi2 : i < ys.length),
        decodeEvent (xs.get ⟨i, hi⟩) = some (ys.get ⟨i, hi2⟩) := by
  induction xs with
  | nil =>
    intro ys h i hi hi2
    exact absurd hi (by simp)
  | cons x xt ih =>
    intro ys h i hi hi2
    unfold decodeEvents at h
    cases hx : decodeEvent x with
    | none => rw [hx] at h; cases h
    | some ev =>
      rw [hx] at h
      cases hxt : decodeEvents xt with
      | none => rw [hxt] at h; cases h
      | some evl =>
        rw [hxt] at h
        cases h
        cases i with
        | zero => simpa using hx
        | succ n =>
          exact ih evl hxt n (by simpa using hi) (by simpa using hi2)

/-- If a whole message decodes, its events list is the elementwise
decode of its `events` array. -/
theorem new_events_of_some (m : Json) (msg : MarketMessage) (evs : List Json)
    (hevs : (m.get "events").as_array = some evs)
    (h : Event.new m = some msg) :
    decodeEvents evs = some msg.events := by
  unfold Event.new at h
  rw [hevs] at h
  replace h : (match decodeEvents evs with
      | none => none
      | some events =>
        match (m.get "eventId").as_u64 with
        | none => none
        | some event_id =>
          match (m.get "socket_sequence").as_u64 with
          | none => none
          | some socket_sequence =>
            some
              { event_id := event_id
                events := events
                timestamp := (m.get "timestamp").as_u64
                timestampms := (m.get "timestampms").as_u64
                socket_sequence := socket_sequence % 2 ^ 32 }) = some msg := h
  split at h
  next => simp at h
  next events heq =>
    split at h
    next => simp at h
    next eid heq2 =>
      split at h
      next => simp at h
      next ss heq3 =>
        cases h
        rw [heq]

/-! ## Claim theorems -/

/-- Claim C3: processing the two-quote message of the spec's sequence
example, starting from any initial BestBidOffer state, ends with the
snapshot `{best_bid = 50000, bid_amount_remaining = 1.5, best_offer =
50010, ask_amount_remaining = 0.8}`; the events of the message are
applied in wire order. -/
theorem c3_sequence_example (init : BestBidOffer) :
    ∃ msg : MarketMessage, Event.new m3 = some msg ∧
      msg.events =
        [Event.Quote { price := 50000, reason := "", remaining := 3 / 2,
                       side := MarketSide.Bid, delta := none },
         Event.Quote { price := 50010, reason := "", remaining := 4 / 5,
                       side := MarketSide.Ask, delta := none }] ∧
      (processEvents init msg.events).1 =
        { best_bid := 50000, best_offer := 50010,
          bid_amount_remaining := 3 / 2, ask_amount_remaining := 4 / 5 } := by
  refine ⟨{ event_id := 1
            events := [Event.Quote { price := 50000, reason := "", remaining := 3 / 2,
                                     side := MarketSide.Bid, delta := none },
                       Event.Quote { price := 50010, reason := "", remaining := 4 / 5,
                                     side := MarketSide.Ask, delta := none }]
            timestamp := none, timestampms := none, socket_sequence := 0 },
          by with_unfolding_all rfl, rfl, ?_⟩
  cases init
  rfl

/-- Witness for C3 at the all-zero initial state. -/
theorem c3_witness :
    ∃ msg : MarketMessage, Event.new m3 = some msg ∧
      msg.events =
        [Event.Quote { price := 50000, reason := "", remaining := 3 / 2,
                       side := MarketSide.Bid, delta := none },
         Event.Quote { price := 50010, reason := "", remaining := 4 / 5,
                       side := MarketSide.Ask, delta := none }] ∧
      (processEvents BestBidOffer.new msg.events).1 =
        { best_bid := 50000, best_offer := 50010,
          bid_amount_remaining := 3 / 2, ask_amount_remaining := 4 / 5 } :=
  c3_sequence_example BestBidOffer.new

/-- Claim C4: a Bid quote overwrites exactly `best_bid` and
`bid_amount_remaining`, leaving the two Ask fields untouched, and
symmetrically for an Ask quote. -/
theorem c4_side_dispatch (s : BestBidOffer) (q : Quote) :
    (q.side = MarketSide.Bid →
      applyQuote s q =
        { s with best_bid := q.price, bid_amount_remaining := q.remaining }) ∧
    (q.side = MarketSide.Ask →
      applyQuote s q =
        { s with best_offer := q.price, ask_amount_remaining := q.remaining }) := by
  constructor <;> intro h <;> simp [applyQuote, h]

/-- Witness for C4 at a concrete state and Bid quote. -/
theorem c4_witness :
    applyQuote { best_bid := 1, best_offer := 2,
                 bid_amount_remaining := 3, ask_amount_remaining := 4 }
      { price := 9, reason := "", remaining := 7,
        side := MarketSide.Bid, delta := none } =
      { best_bid := 9, best_offer := 2,
        bid_amount_remaining := 7, ask_amount_remaining := 4 } :=
  (c4_side_dispatch _ _).1 rfl

/-- Claim C5: applying a quote whose side is Unknown leaves all four
BestBidOffer fields unchanged, and the call still reports exactly one
snapshot of the (unchanged) current state. -/
theorem c5_unknown_noop (s : BestBidOffer) (q : Quote)
    (h : q.side = MarketSide.Unknown) :
    processEvent s (Event.Quote q) = (s, [Report.bbo s]) := by
  simp [processEvent, applyQuote, h]

/-- Witness for C5 at a concrete state and Unknown-side quote. -/
theorem c5_witness :
    processEvent { best_bid := 1, best_offer := 2,
                   bid_amount_remaining := 3, ask_amount_remaining := 4 }
      (Event.Quote { price := 9, reason := "", remaining := 7,
                     side := MarketSide.Unknown, delta := none }) =
      ({ best_bid := 1, best_offer := 2,
         bid_amount_remaining := 3, ask_amount_remaining := 4 },
       [Report.bbo { best_bid := 1, best_offer := 2,
                     bid_amount_remaining := 3, ask_amount_remaining := 4 }]) :=
  c5_unknown_noop _ _ rfl

/-- Claim C6: when the `events` field is missing or not an array, or
`eventId` or `socket_sequence` does not yield an unsigned integer, the
decode fails as a whole and none of the message's events are
processed. -/
theorem c6_fatal_fields (m : Json)
    (h : (m.get "events").as_array = none ∨ (m.get "eventId").as_u64 = none ∨
         (m.get "socket_sequence").as_u64 = none) :
    Event.new m = none ∧ ∀ s : BestBidOffer, processMessage s m = (s, []) := by
  have hn : Event.new m = none := by
    unfold Event.new
    rcases h with h | h | h
    · rw [h]
    · cases ha : (m.get "events").as_array with
      | none => rfl
      | some evs =>
        cases hd : decodeEvents evs with
        | none => simp only [hd]
        | some el => simp only [hd, h]
    · cases ha : (m.get "events").as_array with
      | none => rfl
      | some evs =>
        cases hd : decodeEvents evs with
        | none => simp only [hd]
        | some el =>
          cases he : (m.get "eventId").as_u64 with
          | none => simp only [hd, he]
          | some eid => simp only [hd, he, h]
  refine ⟨hn, fun s => ?_⟩
  unfold processMessage
  rw [hn]

/-- Witness for C6 at the empty JSON object, which lacks `events`. -/
theorem c6_witness :
    Event.new (Json.obj []) = none ∧
      ∀ s : BestBidOffer, processMessage s (Json.obj []) = (s, []) :=
  c6_fatal_fields (Json.obj []) (Or.inl rfl)

/-- Claim C8: every trade event is reported exactly once with notional
`amount * price` and neither reads nor writes the BestBidOffer state;
at the spec's example trade the notional is 201. -/
theorem c8_trade_notional (s : BestBidOffer) :
    (∀ t : Trade,
      processEvent s (Event.Trade t) = (s, [Report.trade t (t.amount * t.price)])) ∧
    decodeEvent e8 =
      some (Event.Trade { price := 201 / 2, amount := 2, maker_side := MarketSide.Bid }) ∧
    processEvent s
        (Event.Trade { price := 201 / 2, amount := 2, maker_side := MarketSide.Bid }) =
      (s, [Report.trade { price := 201 / 2, amount := 2, maker_side := MarketSide.Bid } 201]) := by
  refine ⟨fun t => rfl, by with_unfolding_all rfl, ?_⟩
  have h201 : (2 : ℚ) * (201 / 2) = 201 := by norm_num
  simp [processEvent, h201]

/-- Witness for C8 at the all-zero state. -/
theorem c8_witness :
    processEvent BestBidOffer.new
        (Event.Trade { price := 201 / 2, amount := 2, maker_side := MarketSide.Bid }) =
      (BestBidOffer.new,
       [Report.trade { price := 201 / 2, amount := 2, maker_side := MarketSide.Bid } 201]) :=
  (c8_trade_notional BestBidOffer.new).2.2

/-- Claim C9: the side-string mapping is total and case-sensitive:
exactly `"ask"` maps to Ask, exactly `"bid"` to Bid, and every other
string to Unknown without error. -/
theorem c9_side_mapping :
    MarketSide.from_string "ask" = MarketSide.Ask ∧
    MarketSide.from_string "bid" = MarketSide.Bid ∧
    ∀ s : String, s ≠ "ask" → s ≠ "bid" →
      MarketSide.from_string s = MarketSide.Unknown := by
  refine ⟨rfl, rfl, fun s h1 h2 => ?_⟩
  unfold MarketSide.from_string
  split <;> simp_all

/-- Witness for C9: `"BID"` (wrong case) maps to Unknown. -/
theorem c9_witness : MarketSide.from_string "BID" = MarketSide.Unknown :=
  c9_side_mapping.2.2 "BID" (by decide) (by decide)

/-- Claim C7: a change event with a valid `price` and the four optional
fields omitted decodes to a Quote with `reason = ""`, `remaining = 0`,
`side = Unknown` and `delta` absent. -/
theorem c7_change_defaults (e : Json) (p : String) (v : ℚ)
    (ht : (e.get "type").as_str = some "change")
    (hp : (e.get "price").as_str = some p)
    (hv : parseDecimal p = some v)
    (hr : e.get "reason" = Json.null)
    (hrem : e.get "remaining" = Json.null)
    (hs : e.get "side" = Json.null)
    (hd : e.get "delta" = Json.null) :
    decodeEvent e = some (Event.Quote
      { price := v, reason := "", remaining := 0,
        side := MarketSide.Unknown, delta := none }) := by
  have hc : MessageType.from_string "change" = MessageType.Change := rfl
  unfold decodeEvent
  simp only [hp, hv, ht, hc]
  simp [decodeRemaining, decodeDelta, decodeReason, decodeSide,
    hr, hrem, hs, hd, Json.as_str]

/-- Witness for C7 at a concrete change element. -/
theorem c7_witness :
    decodeEvent eW7 = some (Event.Quote
      { price := 7 / 2, reason := "", remaining := 0,
        side := MarketSide.Unknown, delta := none }) :=
  c7_change_defaults eW7 "3.5" (7 / 2) rfl rfl (by with_unfolding_all rfl)
    rfl rfl rfl rfl

/-- Claim C1 (amended): an events element whose `type` is neither
`"trade"` nor `"change"` decodes to `Event.Unknown` — provided its
`price` field is a string parsing as a decimal, since the decoder reads
`price` before dispatching on `type` — and the other events of the same
batch are decoded normally, elementwise and in order. -/
theorem c1_unknown_type_tolerance (m : Json) (evs : List Json) (msg : MarketMessage)
    (hevs : (m.get "events").as_array = some evs)
    (hm : Event.new m = some msg)
    (i : Nat) (hi : i < evs.length) (t p : String) (v : ℚ)
    (ht : ((evs.get ⟨i, hi⟩).get "type").as_str = some t)
    (h1 : t ≠ "trade") (h2 : t ≠ "change")
    (hp : ((evs.get ⟨i, hi⟩).get "price").as_str = some p)
    (hv : parseDecimal p = some v) :
    msg.events.length = evs.length ∧
    (∀ hi2 : i < msg.events.length, msg.events.get ⟨i, hi2⟩ = Event.Unknown) ∧
    (∀ (j : Nat) (hj : j < evs.length) (hj2 : j < msg.events.length),
      decodeEvent (evs.get ⟨j, hj⟩) = some (msg.events.get ⟨j, hj2⟩)) := by
  have hde : decodeEvents evs = some msg.events := new_events_of_some m msg evs hevs hm
  refine ⟨decodeEvents_length evs msg.events hde, ?_, ?_⟩
  · intro hi2
    have hg := decodeEvents_get evs msg.events hde i hi hi2
    have hu : decodeEvent (evs.get ⟨i, hi⟩) = some Event.Unknown := by
      unfold decodeEvent
      simp only [hp, hv, ht, from_string_type_unknown t h1 h2]
    rw [hu] at hg
    exact (Option.some_inj.mp hg).symm
  · intro j hj hj2
    exact decodeEvents_get evs msg.events hde j hj hj2

/-- Witness for C1 at a concrete batch: a `"liquidation"` element with
a valid price decodes to Unknown at index 0 and the trade at index 1 is
decoded normally. -/
theorem c1_witness :
    msgW1.events.length = [eW1a, eW1b].length ∧
    (∀ hi2 : 0 < msgW1.events.length, msgW1.events.get ⟨0, hi2⟩ = Event.Unknown) ∧
    (∀ (j : Nat) (hj : j < [eW1a, eW1b].length) (hj2 : j < msgW1.events.length),
      decodeEvent ([eW1a, eW1b].get ⟨j, hj⟩) = some (msgW1.events.get ⟨j, hj2⟩)) :=
  c1_unknown_type_tolerance mW1 [eW1a, eW1b] msgW1 rfl (by with_unfolding_all rfl)
    0 (by decide) "liquidation" "5" 5 rfl (by decide) (by decide) rfl
    (by with_unfolding_all rfl)

/-- Counterexample to C1 as stated: an unknown-type element with no
`price` field makes the whole decode fail, because the decoder reads
`price` for every element before looking at its type. -/
theorem c1_counterexample :
    (eC1.get "type").as_str = some "liquidation" ∧
    decodeEvent eC1 = none ∧ Event.new mC1 = none :=
  ⟨rfl, rfl, rfl⟩

/-- `decodeRemaining` succeeds exactly when the `remaining` field is
absent, not a string, or a parseable decimal string. -/
theorem decodeRemaining_isSome (e : Json) :
    (decodeRemaining e).isSome = optionalDecimalOk (e.get "remaining") := by
  unfold decodeRemaining optionalDecimalOk
  cases hr : (e.get "remaining").as_str with
  | none => rfl
  | some n => rfl

/-- `decodeDelta` succeeds exactly when the `delta` field is absent,
not a string, or a parseable decimal string. -/
theorem decodeDelta_isSome (e : Json) :
    (decodeDelta e).isSome = optionalDecimalOk (e.get "delta") := by
  unfold decodeDelta optionalDecimalOk
  cases hr : (e.get "delta").as_str with
  | none => rfl
  | some n => simp

/-- Claim C2 (amended): for a change event with a valid price, each of
`reason`, `remaining`, `side`, `delta` independently defaults when
missing or not a JSON string, and the decode succeeds iff `remaining`
and `delta` are each absent, non-string, or a parseable decimal string;
a `remaining` or `delta` present as an unparseable string fails the
whole decode. -/
theorem c2_optional_fields (e : Json) (p : String) (v : ℚ)
    (ht : (e.get "type").as_str = some "change")
    (hp : (e.get "price").as_str = some p)
    (hv : parseDecimal p = some v) :
    ((∃ q, decodeEvent e = some (Event.Quote q)) ↔
      (optionalDecimalOk (e.get "remaining") = true ∧
       optionalDecimalOk (e.get "delta") = true)) ∧
    (∀ q : Quote, decodeEvent e = some (Event.Quote q) →
      q.price = v ∧
      q.reason = ((e.get "reason").as_str).getD "" ∧
      ((e.get "remaining").as_str = none → q.remaining = 0) ∧
      (∀ s, (e.get "remaining").as_str = some s → parseDecimal s = some q.remaining) ∧
      ((e.get "side").as_str = none → q.side = MarketSide.Unknown) ∧
      (∀ s, (e.get "side").as_str = some s → q.side = MarketSide.from_string s) ∧
      ((e.get "delta").as_str = none → q.delta = none) ∧
      (∀ s, (e.get "delta").as_str = some s →
        ∃ d, parseDecimal s = some d ∧ q.delta = some d)) := by
  have hc : MessageType.from_string "change" = MessageType.Change := rfl
  have hde : decodeEvent e =
      (match decodeRemaining e with
       | none => none
       | some remaining =>
         match decodeDelta e with
         | none => none
         | some delta =>
           some (Event.Quote ⟨v, decodeReason e, remaining, decodeSide e, delta⟩)) := by
    unfold decodeEvent
    simp only [hp, hv, ht, hc]
  constructor
  · constructor
    · rintro ⟨q, hq⟩
      rw [hde] at hq
      cases hrem : decodeRemaining e with
      | none => rw [hrem] at hq; cases hq
      | some r =>
        cases hdel : decodeDelta e with
        | none =>
          simp only [hrem, hdel] at hq
          exact Option.noConfusion hq
        | some d =>
          constructor
          · rw [← decodeRemaining_isSome e, hrem]; rfl
          · rw [← decodeDelta_isSome e, hdel]; rfl
    · rintro ⟨hr2, hd2⟩
      have h1s : (decodeRemaining e).isSome = true := by
        rw [decodeRemaining_isSome e]; exact hr2
      have h2s : (decodeDelta e).isSome = true := by
        rw [decodeDelta_isSome e]; exact hd2
      obtain ⟨r, hrem⟩ := Option.isSome_iff_exists.mp h1s
      obtain ⟨d, hdel⟩ := Option.isSome_iff_exists.mp h2s
      refine ⟨⟨v, decodeReason e, r, decodeSide e, d⟩, ?_⟩
      rw [hde]
      simp only [hrem, hdel]
  · intro q hq
    rw [hde] at hq
    cases hrem : decodeRemaining e with
    | none => rw [hrem] at hq; cases hq
    | some r =>
      cases hdel : decodeDelta e with
      | none =>
        simp only [hrem, hdel] at hq
        exact Option.noConfusion hq
      | some d =>
        simp only [hrem, hdel] at hq
        cases hq
        refine ⟨rfl, ?_, ?_, ?_, ?_, ?_, ?_, ?_⟩
        · cases hrs : (e.get "reason").as_str with
          | none => simp [decodeReason, hrs]
          | some n => simp [decodeReason, hrs]
        · intro h0
          unfold decodeRemaining at hrem
          rw [h0] at hrem
          cases hrem
          rfl
        · intro s hs2
          unfold decodeRemaining at hrem
          rw [hs2] at hrem
          exact hrem
        · intro h0
          simp [decodeSide, h0]
        · intro s hs2
          simp [decodeSide, hs2]
        · intro h0
          unfold decodeDelta at hdel
          rw [h0] at hdel
          cases hdel
          rfl
        · intro s hs2
          unfold decodeDelta at hdel
          rw [hs2] at hdel
          replace hdel : Option.map some (parseDecimal s) = some d := hdel
          cases hpd : parseDecimal s with
          | none => rw [hpd] at hdel; cases hdel
          | some d2 => rw [hpd] at hdel; cases hdel; exact ⟨d2, rfl, rfl⟩

/-- Witness for C2 at a change element with `remaining` and `delta`
absent: the decode succeeds. -/
theorem c2_witness : ∃ q, decodeEvent eW2 = some (Event.Quote q) :=
  (c2_optional_fields eW2 "1.5" (3 / 2) rfl rfl (by with_unfolding_all rfl)).1.mpr
    ⟨rfl, rfl⟩

/-- Counterexample to C2 as stated: a change event whose `remaining`
is the string `"abc"` (present, of the expected JSON string type, but
not a decimal) fails the whole decode. -/
theorem c2_counterexample :
    (eC2.get "remaining").as_str = some "abc" ∧
    decodeEvent eC2 = none ∧ Event.new mC2 = none :=
  ⟨rfl, by with_unfolding_all rfl, by with_unfolding_all rfl⟩

/-- Claim C10 (amended): a `socket_sequence` integer strictly between
`2^32 - 1` (exclusive) and `2^64` (exclusive) does not fail the decode
and is silently truncated modulo `2^32`; integers `≥ 2^64` cannot be
stored by serde_json as integers and fail the decode instead
(see the counterexample). -/
theorem c10_truncation (m : Json) (sq : Int) (eid : Nat) (evs : List Json) (el : List Event)
    (hsq : m.get "socket_sequence" = Json.int sq)
    (hlo : (2 : Int) ^ 32 - 1 < sq) (hhi : sq < 2 ^ 64)
    (hevs : (m.get "events").as_array = some evs)
    (hel : decodeEvents evs = some el)
    (heid : (m.get "eventId").as_u64 = some eid) :
    ∃ msg : MarketMessage, Event.new m = some msg ∧
      msg.socket_sequence = sq.toNat % 2 ^ 32 ∧
      msg.events = el ∧ msg.event_id = eid := by
  have h0 : ((0 : Int) ≤ sq ∧ sq < 2 ^ 64) :=
    ⟨le_trans (by norm_num) (le_of_lt hlo), hhi⟩
  have hsu : (m.get "socket_sequence").as_u64 = some sq.toNat := by
    rw [hsq]
    show (if 0 ≤ sq ∧ sq < 2 ^ 64 then some sq.toNat else none) = some sq.toNat
    rw [if_pos h0]
  refine ⟨{ event_id := eid, events := el,
            timestamp := (m.get "timestamp").as_u64,
            timestampms := (m.get "timestampms").as_u64,
            socket_sequence := sq.toNat % 2 ^ 32 }, ?_, rfl, rfl, rfl⟩
  unfold Event.new
  simp only [hevs, hel, heid, hsu]

/-- Witness for C10 at `socket_sequence = 2^32 + 5`, truncated to 5. -/
theorem c10_witness :
    ∃ msg : MarketMessage, Event.new m10w = some msg ∧
      msg.socket_sequence = (2 ^ 32 + 5 : Int).toNat % 2 ^ 32 ∧
      msg.events = [] ∧ msg.event_id = 1 :=
  c10_truncation m10w (2 ^ 32 + 5) 1 [] [] rfl (by norm_num) (by norm_num)
    rfl rfl rfl

/-- Counterexample to C10 as stated: `socket_sequence = 2^64` is a JSON
integer greater than `2^32 - 1`, yet the decode fails rather than
truncating, because serde_json stores it as a float and `as_u64`
rejects it. -/
theorem c10_counterexample :
    m10c.get "socket_sequence" = Json.int (2 ^ 64) ∧
    (2 : Int) ^ 32 - 1 < 2 ^ 64 ∧
    Event.new m10c = none :=
  ⟨rfl, by norm_num, rfl⟩

end Gemini
